import Mathlib

/-!
# tpm2-openssl: the object store loader (`src/tpm2-provider-store-object.c`)

A shallow embedding of the STORE loader for `object:` and `handle:` locators.

Conventions of the embedding

* A C string is the list of its characters before the terminating NUL; the end
  of the list plays the role of the NUL.
* `int` fields and results are `Int`; the one place where `int` arithmetic can
  leave its range (`size += 1024` in `read_until_eof`) is guarded and reported
  as `ReadOutcome.undefined`.
* Memory allocation is total in the embedding: the `NULL` branches of
  `OPENSSL_zalloc`, `OPENSSL_strdup`, `OPENSSL_malloc` and `OPENSSL_realloc`
  are not represented.
* Calls that leave the translation unit (the ESYS device session, the two
  OpenSSL callbacks, the algorithm classifier, `BIO_new_file`) are answered by
  functions supplied in an environment, and every such call is recorded, with
  its result, in a trace of `Event`s. The releases of the session context and
  of the key descriptor (`OPENSSL_clear_free`), of the byte source (`BIO_free`)
  and of a handle (`Esys_TR_Close`) are recorded as well; `OPENSSL_free` of the
  temporary copies (`baseuri`, the read buffer) is not.
-/

namespace Tpm2Store

/-! ## Basic types and constants -/

abbrev Byte := Nat
abbrev TPM2_HANDLE := Nat
abbrev ESYS_TR := Nat
abbrev TSS2_RC := Nat
abbrev TPM2B_PUBLIC := List Byte

/-- The constant `UINT32_MAX` of `<stdint.h>`. -/
def UINT32_MAX : Nat := 4294967295

/-- The limit of the C implementation that the loader depends on: `ULONG_MAX` of `<limits.h>`,
which ISO C (5.2.4.2.1) requires to be at least 4294967295. -/
structure C_LIMITS where
  ULONG_MAX : Nat
  ULONG_MAX_ge : 4294967295 ≤ ULONG_MAX

/-- The constant `INT_MAX` of `<limits.h>` for the 32-bit `int` of every platform the provider
is built for. -/
def INT_MAX : Int := 2147483647

/-- The constant `OSSL_OBJECT_PKEY` of `<openssl/core_object.h>`. -/
def OSSL_OBJECT_PKEY : Int := 2

/-- The value of `sizeof(TPMU_HA)`: the largest digest of the TSS2 type definitions
(SHA-512). -/
def sizeof_TPMU_HA : Nat := 64

/-! ## The C library functions the loader calls -/

/-- The function `isspace` in the "C" locale: space, and the controls HT, LF, VT, FF, CR. -/
def isspace (c : Char) : Bool :=
  c.toNat == 32 || (9 ≤ c.toNat && c.toNat ≤ 13)

/-- Value of a hexadecimal digit, `none` for any other character. -/
def hexval (c : Char) : Option Nat :=
  if 48 ≤ c.toNat ∧ c.toNat ≤ 57 then some (c.toNat - 48)
  else if 97 ≤ c.toNat ∧ c.toNat ≤ 102 then some (c.toNat - 87)
  else if 65 ≤ c.toNat ∧ c.toNat ≤ 70 then some (c.toNat - 55)
  else none

/-- The function `isxdigit`. -/
def isxdigit (c : Char) : Bool := (hexval c).isSome

/-- Accumulation of hexadecimal digits, most significant first. -/
def hexaccum (digits : List Char) : Nat :=
  digits.foldl (fun acc c => 16 * acc + (hexval c).getD 0) 0

/-- The number a string of hexadecimal digits denotes in base 16, by the positional reading
of Mathlib (least significant digit first, hence the reversal). -/
def hex_value (h : List Char) : Nat :=
  Nat.ofDigits 16 (h.reverse.map (fun c => (hexval c).getD 0))

/-- The sign part of the subject sequence of `strtoul`: whether a minus sign was read, and the
text after the optional sign. -/
def strtoul_sign (s : List Char) : Bool × List Char :=
  match s with
  | c :: t => if c = '-' then (true, t) else if c = '+' then (false, t) else (false, s)
  | [] => (false, s)

/-- The optional `0x`/`0X` of base 16: it belongs to the subject sequence only when a
hexadecimal digit follows it. -/
def strtoul_0x (s : List Char) : List Char :=
  match s with
  | z :: x :: d :: t =>
      if z = '0' ∧ (x = 'x' ∨ x = 'X') ∧ isxdigit d = true then d :: t else s
  | _ => s

/-- The call `strtoul(nptr, &end_ptr, 16)` of ISO C (7.22.1.4), for an `unsigned long` whose
largest value is `ULONG_MAX`. The result is the converted value and the text `end_ptr` points
to. White space is skipped, a sign and a `0x` are optional; with no digit at all nothing is
converted and `end_ptr` is `nptr`; a value out of range gives `ULONG_MAX`; a minus sign negates
in the return type. -/
def strtoul (ULONG_MAX : Nat) (nptr : List Char) : Nat × List Char :=
  let s := nptr.dropWhile isspace
  let sg := strtoul_sign s
  let body := strtoul_0x sg.2
  let digits := body.takeWhile isxdigit
  let rest := body.dropWhile isxdigit
  if digits = [] then (0, nptr)
  else
    let v := hexaccum digits
    if ULONG_MAX < v then (ULONG_MAX, rest)
    else if sg.1 then ((ULONG_MAX + 1 - v) % (ULONG_MAX + 1), rest)
    else (v, rest)

/-- The numbers `strtoul` reads in base 16, as a grammar: optional white space, an optional
sign, an optional `0x` or `0X`, then at least one hexadecimal digit; `v` is what the digits
denote, replaced by `ULONG_MAX` when out of range and otherwise negated modulo
`ULONG_MAX + 1` under a minus sign. -/
def StrtoulNumber (ULONG_MAX : Nat) (r : List Char) (v : Nat) : Prop :=
  ∃ ws sign pre digits : List Char,
    r = ws ++ sign ++ pre ++ digits ∧
    (∀ c ∈ ws, isspace c = true) ∧
    (sign = [] ∨ sign = ['+'] ∨ sign = ['-']) ∧
    (pre = [] ∨ pre = ['0', 'x'] ∨ pre = ['0', 'X']) ∧
    digits ≠ [] ∧ (∀ c ∈ digits, isxdigit c = true) ∧
    v = if ULONG_MAX < hex_value digits then ULONG_MAX
        else if sign = ['-'] then (ULONG_MAX + 1 - hex_value digits) % (ULONG_MAX + 1)
        else hex_value digits

/-- The call `strchr(s, c)`: the text from the first occurrence of `c` on, or `none`. -/
def strchr (s : List Char) (c : Char) : Option (List Char) :=
  match s with
  | [] => none
  | a :: t => if a = c then some (a :: t) else strchr t c

/-- The call `strncmp(a, b, n)` reduced to what the loader tests: the result is zero exactly
when the first `n` characters of the two strings (or the whole strings, if shorter) agree. -/
def strncmp_eq (a b : List Char) (n : Nat) : Bool := a.take n == b.take n

/-! ## Byte sources -/

/-- What one `BIO_read` finds at the head of a byte source: a chunk of bytes that is ready, or
a read error. -/
inductive ReadItem where
  | data (bytes : List Byte)
  | error (code : Nat)
deriving DecidableEq, Repr

/-- An OpenSSL `BIO` used for reading (`struct bio_st`): the chunks still to be delivered and
how end-of-file is reported. With `sticky` the source reports end-of-file only after a read
has found it empty (as `feof` does); otherwise as soon as nothing is pending. -/
structure bio_st where
  pending : List ReadItem
  sticky : Bool
  hit_end : Bool
deriving DecidableEq, Repr

/-- The call `BIO_read(bio, data, dlen)`: the return value, the bytes stored, and the source
afterwards. At most `dlen` bytes of the chunk at the head are delivered; an error item gives
a negative return value. -/
def BIO_read (b : bio_st) (dlen : Int) : Int × List Byte × bio_st :=
  match b.pending with
  | [] => (0, [], { b with hit_end := true })
  | ReadItem.error code :: rest => (-((code : Int) + 1), [], { b with pending := rest })
  | ReadItem.data bytes :: rest =>
      if bytes.length ≤ dlen.toNat then
        ((bytes.length : Int), bytes, { b with pending := rest })
      else
        ((dlen.toNat : Int), bytes.take dlen.toNat,
          { b with pending := ReadItem.data (bytes.drop dlen.toNat) :: rest })

/-- The call `BIO_eof(bio)`. -/
def BIO_eof (b : bio_st) : Int :=
  if b.pending.isEmpty && (!b.sticky || b.hit_end) then 1 else 0

/-! ## Session context and events -/

/-- The provider context fields copied into every session (`TPM2_PROVIDER_CTX`). -/
structure TPM2_PROVIDER_CTX where
  core : Nat
  esys_ctx : Nat
  capability : Nat
deriving DecidableEq, Repr

/-- The structure `struct tpm2_object_ctx_st`. -/
structure TPM2_OBJECT_CTX where
  core : Nat
  esys_ctx : Nat
  capability : Nat
  has_pass : Int
  handle : TPM2_HANDLE
  bio : Option bio_st
  load_done : Int
deriving DecidableEq, Repr

/-- Kind of private part of a key (`tpm2-provider-types.h`); a zeroed key has the first. -/
inductive TPM2_PRIVATE_TYPE where
  | KEY_TYPE_NONE
  | KEY_TYPE_BLOB
  | KEY_TYPE_HANDLE
deriving DecidableEq, Repr

/-- The fields of `TPM2_KEYDATA` the loader fills in. -/
structure TPM2_KEYDATA where
  pub : TPM2B_PUBLIC
  privatetype : TPM2_PRIVATE_TYPE
  handle : TPM2_HANDLE
  emptyAuth : Int
deriving DecidableEq, Repr

/-- The key descriptor `TPM2_PKEY`. -/
structure TPM2_PKEY where
  core : Nat
  esys_ctx : Nat
  capability : Nat
  object : ESYS_TR
  data : TPM2_KEYDATA
deriving DecidableEq, Repr

/-- The authorization value `TPM2B_DIGEST`: a 16-bit size and the bytes of the buffer. -/
structure TPM2B_DIGEST where
  size : Nat
  buffer : List Byte
deriving DecidableEq, Repr

/-- The parameter array handed to the object callback: object type, data type, and the
reference (the address of the descriptor pointer, modelled by the descriptor). -/
structure ObjectParams where
  object_type : Int
  data_type : List Char
  reference : TPM2_PKEY
deriving DecidableEq, Repr

/-- Error reasons raised by the loader. -/
inductive TPM2_ERR where
  | CANNOT_LOAD_KEY
  | AUTHORIZATION_FAILURE
  | UNKNOWN_ALGORITHM
deriving DecidableEq, Repr

/-- The calls the loader makes, each with its arguments and its result. -/
inductive Event where
  | BIO_new_file (filename mode : List Char) (ok : Bool)
  | read_until_eof (ret : Int)
  | Esys_TR_Deserialize (esys_ctx : Nat) (buffer : List Byte) (size : Int) (rc : TSS2_RC)
      (object : ESYS_TR)
  | Esys_TR_FromTPMPublic (esys_ctx : Nat) (handle : TPM2_HANDLE) (rc : TSS2_RC)
      (object : ESYS_TR)
  | pw_cb (pass_size : Nat) (ret : Int) (plen : Nat)
  | Esys_TR_SetAuth (esys_ctx : Nat) (object : ESYS_TR) (auth : TPM2B_DIGEST) (rc : TSS2_RC)
  | Esys_ReadPublic (esys_ctx : Nat) (object : ESYS_TR) (rc : TSS2_RC)
  | tpm2_openssl_type (data : TPM2_KEYDATA) (keytype : Option (List Char))
  | object_cb (params : ObjectParams) (ret : Int)
  | Esys_TR_Close (esys_ctx : Nat) (object : ESYS_TR)
  | TPM2_ERROR_raise (core : Nat) (reason : TPM2_ERR)
  | clear_free_pkey (pkey : TPM2_PKEY)
  | BIO_free (bio : Option bio_st)
  | clear_free_ctx (ctx : TPM2_OBJECT_CTX)
deriving DecidableEq, Repr

/-! ## `tpm2_object_open` -/

/-- The option part of `tpm2_object_open`: at the first `?` the locator is cut, and what
follows must compare equal to `pass` over four characters; the result is `baseuri` and the
context, or `none` for the jump to `error2`. -/
def open_options (ctx : TPM2_OBJECT_CTX) (uri : List Char) :
    Option (List Char × TPM2_OBJECT_CTX) :=
  match strchr uri '?' with
  | some opts =>
      if strncmp_eq (opts.drop 1) "pass".toList 4 then
        some (uri.takeWhile (fun c => c != '?'), { ctx with has_pass := 1 })
      else none
  | none => some (uri, ctx)

/-- The function `tpm2_object_open(provctx, uri)`. `BIO_new_file` answers the attempt to open a
file for reading. The result is the session context (`none` for `NULL`) and the calls made;
on every failure path the label `error1` clears and frees the context. -/
def tpm2_object_open (ULONG_MAX : Nat) (BIO_new_file : List Char → Option bio_st)
    (cprov : TPM2_PROVIDER_CTX) (uri : List Char) : Option TPM2_OBJECT_CTX × List Event :=
  let ctx0 : TPM2_OBJECT_CTX :=
    { core := cprov.core, esys_ctx := cprov.esys_ctx, capability := cprov.capability,
      has_pass := 0, handle := 0, bio := none, load_done := 0 }
  match open_options ctx0 uri with
  | none => (none, [Event.clear_free_ctx ctx0])
  | some (baseuri, ctx) =>
      if strncmp_eq baseuri "object:".toList 7 then
        match BIO_new_file (baseuri.drop 7) with
        | none =>
            (none, [Event.BIO_new_file (baseuri.drop 7) "rb".toList false,
                    Event.clear_free_ctx ctx])
        | some bio =>
            (some { ctx with bio := some bio },
              [Event.BIO_new_file (baseuri.drop 7) "rb".toList true])
      else if strncmp_eq baseuri "handle:".toList 7 then
        let r := strtoul ULONG_MAX (baseuri.drop 7)
        if r.2 ≠ [] ∨ UINT32_MAX < r.1 then (none, [Event.clear_free_ctx ctx])
        else (some { ctx with handle := r.1 }, [])
      else (none, [Event.clear_free_ctx ctx])

/-- The function `tpm2_object_attach(provctx, cin)`; `cin_bio` is the answer of
`bio_new_from_core_bio` for the core BIO passed in. -/
def tpm2_object_attach (cprov : TPM2_PROVIDER_CTX) (cin_bio : Option bio_st) :
    Option TPM2_OBJECT_CTX :=
  match cin_bio with
  | none => none
  | some bio =>
      some { core := cprov.core, esys_ctx := cprov.esys_ctx, capability := cprov.capability,
             has_pass := 0, handle := 0, bio := some bio, load_done := 0 }

/-! ## `read_until_eof` -/

/-- How a call of `read_until_eof` ends. `returned len buffer size`: the return value `len`,
the bytes stored in `*buffer` so far (its first `len` bytes) and the allocated `size`.
`failed`: the return value -1 after a negative `BIO_read`, the buffer freed. `undefined`:
`size += 1024` would exceed `INT_MAX`. `unfinished`: the iteration bound of the embedding was
used up (shown below never to happen). -/
inductive ReadOutcome where
  | returned (len : Int) (buffer : List Byte) (size : Int)
  | failed
  | undefined
  | unfinished
deriving DecidableEq, Repr

/-- The `do ... while (!BIO_eof(bio))` loop of `read_until_eof`, with `buffer` the bytes stored
so far. -/
def read_loop : Nat → bio_st → Int → Int → List Byte → ReadOutcome × bio_st
  | 0, bio, _, _, _ => (ReadOutcome.unfinished, bio)
  | fuel + 1, bio, size, len, buffer =>
      if size - len < 64 ∧ INT_MAX < size + 1024 then (ReadOutcome.undefined, bio)
      else
        let size1 := if size - len < 64 then size + 1024 else size
        let r := BIO_read bio (size1 - len)
        if r.1 < 0 then (ReadOutcome.failed, r.2.2)
        else if BIO_eof r.2.2 ≠ 0 then
          (ReadOutcome.returned (len + r.1) (buffer ++ r.2.1) size1, r.2.2)
        else read_loop fuel r.2.2 size1 (len + r.1) (buffer ++ r.2.1)

/-- Number of `BIO_read` calls after which a byte source is certainly exhausted, when at
least one byte is asked for each time. -/
def read_cost : List ReadItem → Nat
  | [] => 0
  | ReadItem.data bytes :: rest => bytes.length + 1 + read_cost rest
  | ReadItem.error _ :: rest => 1 + read_cost rest

/-- The bytes a source holds, in order. -/
def source_bytes : List ReadItem → List Byte
  | [] => []
  | ReadItem.data bytes :: rest => bytes ++ source_bytes rest
  | ReadItem.error _ :: rest => source_bytes rest

/-- No item of the source is a read error. -/
def no_read_error : List ReadItem → Bool
  | [] => true
  | ReadItem.data _ :: rest => no_read_error rest
  | ReadItem.error _ :: _ => false

/-- The function `read_until_eof(bio, buffer)`: the outcome and the byte source afterwards. -/
def read_until_eof (bio : bio_st) : ReadOutcome × bio_st :=
  read_loop (read_cost bio.pending + 1) bio 1024 0 []

/-! ## `tpm2_object_load` -/

/-- Modelled from the spec: the macro `TPM2_CHECK_RC(core, rc, reason, command)` is declared
in `tpm2-provider.h`, which is not among the sources. By "any device-reported failure ... is
surfaced", a response code other than `TSS2_RC_SUCCESS` (zero) raises the reason and runs the
command; the function answers whether that happens. -/
def TPM2_CHECK_RC (rc : TSS2_RC) : Bool := rc != 0

/-- The collaborators of one `tpm2_object_load` call: device session, passphrase callback,
algorithm classifier and object callback. Each gives its result for the arguments it is
called with. -/
structure LoadEnv where
  Esys_TR_Deserialize : List Byte → Int → TSS2_RC × ESYS_TR
  Esys_TR_FromTPMPublic : TPM2_HANDLE → TSS2_RC × ESYS_TR
  pw_cb : Nat → Int × List Byte × Nat
  Esys_TR_SetAuth : ESYS_TR → TPM2B_DIGEST → TSS2_RC
  Esys_ReadPublic : ESYS_TR → TSS2_RC × TPM2B_PUBLIC
  tpm2_openssl_type : TPM2_KEYDATA → Option (List Char)
  object_cb : ObjectParams → Int

/-- What a `tpm2_object_load` call leaves behind: return value, session context, calls. -/
structure LoadResult where
  ret : Int
  sctx : TPM2_OBJECT_CTX
  trace : List Event
deriving DecidableEq, Repr

/-- The label `error1`: the descriptor is cleared and freed (the call then returns 0). -/
def load_error1 (pkey : TPM2_PKEY) : List Event :=
  [Event.clear_free_pkey pkey]

/-- The label `error2`: the handle is closed, then `error1`. -/
def load_error2 (sctx : TPM2_OBJECT_CTX) (pkey : TPM2_PKEY) : List Event :=
  Event.Esys_TR_Close sctx.esys_ctx pkey.object :: load_error1 pkey

/-- The part of `tpm2_object_load` from `Esys_ReadPublic` to the object callback: the return
value and the calls made. -/
def load_describe (env : LoadEnv) (sctx : TPM2_OBJECT_CTX) (pkey : TPM2_PKEY) :
    Int × List Event :=
  let rp := env.Esys_ReadPublic pkey.object
  if TPM2_CHECK_RC rp.1 then
    (0, Event.Esys_ReadPublic sctx.esys_ctx pkey.object rp.1
        :: Event.TPM2_ERROR_raise sctx.core TPM2_ERR.CANNOT_LOAD_KEY
        :: load_error2 sctx pkey)
  else
    let pkey1 : TPM2_PKEY :=
      { pkey with data := { pkey.data with
          pub := rp.2, privatetype := TPM2_PRIVATE_TYPE.KEY_TYPE_HANDLE,
          handle := sctx.handle } }
    match env.tpm2_openssl_type pkey1.data with
    | none =>
        (0, Event.Esys_ReadPublic sctx.esys_ctx pkey.object rp.1
            :: Event.tpm2_openssl_type pkey1.data none
            :: Event.TPM2_ERROR_raise sctx.core TPM2_ERR.UNKNOWN_ALGORITHM
            :: load_error2 sctx pkey1)
    | some keytype =>
        let params : ObjectParams :=
          { object_type := OSSL_OBJECT_PKEY, data_type := keytype, reference := pkey1 }
        (env.object_cb params,
          [Event.Esys_ReadPublic sctx.esys_ctx pkey.object rp.1,
           Event.tpm2_openssl_type pkey1.data (some keytype),
           Event.object_cb params (env.object_cb params)])

/-- The part of `tpm2_object_load` after the acquisition: authorization, then the rest. -/
def load_authorize (env : LoadEnv) (sctx : TPM2_OBJECT_CTX) (pkey : TPM2_PKEY) :
    Int × List Event :=
  if sctx.has_pass ≠ 0 then
    let pw := env.pw_cb sizeof_TPMU_HA
    if pw.1 = 0 then
      (0, Event.pw_cb sizeof_TPMU_HA pw.1 pw.2.2
          :: Event.TPM2_ERROR_raise sctx.core TPM2_ERR.AUTHORIZATION_FAILURE
          :: load_error2 sctx pkey)
    else
      let userauth : TPM2B_DIGEST := { size := pw.2.2 % 65536, buffer := pw.2.1 }
      let rc := env.Esys_TR_SetAuth pkey.object userauth
      if TPM2_CHECK_RC rc then
        (0, Event.pw_cb sizeof_TPMU_HA pw.1 pw.2.2
            :: Event.Esys_TR_SetAuth sctx.esys_ctx pkey.object userauth rc
            :: Event.TPM2_ERROR_raise sctx.core TPM2_ERR.CANNOT_LOAD_KEY
            :: load_error2 sctx pkey)
      else
        let d := load_describe env sctx pkey
        (d.1, Event.pw_cb sizeof_TPMU_HA pw.1 pw.2.2
            :: Event.Esys_TR_SetAuth sctx.esys_ctx pkey.object userauth rc
            :: d.2)
  else
    load_describe env sctx { pkey with data := { pkey.data with emptyAuth := 1 } }

/-- The descriptor after `OPENSSL_zalloc` and the copy of the three context fields. -/
def new_pkey (sctx : TPM2_OBJECT_CTX) : TPM2_PKEY :=
  { core := sctx.core, esys_ctx := sctx.esys_ctx, capability := sctx.capability,
    object := 0,
    data := { pub := [], privatetype := TPM2_PRIVATE_TYPE.KEY_TYPE_NONE, handle := 0,
              emptyAuth := 0 } }

/-- The function `tpm2_object_load(ctx, object_cb, object_cbarg, pw_cb, pw_cbarg)`. The result
is `none` when `read_until_eof` does not end in a defined way. -/
def tpm2_object_load (env : LoadEnv) (sctx : TPM2_OBJECT_CTX) : Option LoadResult :=
  let pkey := new_pkey sctx
  match sctx.bio with
  | some bio =>
      match read_until_eof bio with
      | (ReadOutcome.returned buffer_size buffer _, bio1) =>
          let sctx1 : TPM2_OBJECT_CTX := { sctx with bio := some bio1 }
          if buffer_size < 0 then
            some { ret := 0, sctx := sctx1,
                   trace := Event.read_until_eof buffer_size :: load_error1 pkey }
          else
            let d := env.Esys_TR_Deserialize buffer buffer_size
            let pkey1 : TPM2_PKEY := { pkey with object := d.2 }
            if TPM2_CHECK_RC d.1 then
              some { ret := 0, sctx := sctx1,
                     trace := Event.read_until_eof buffer_size
                       :: Event.Esys_TR_Deserialize sctx.esys_ctx buffer buffer_size d.1 d.2
                       :: Event.TPM2_ERROR_raise sctx.core TPM2_ERR.CANNOT_LOAD_KEY
                       :: load_error1 pkey1 }
            else
              let a := load_authorize env sctx1 pkey1
              some { ret := a.1, sctx := sctx1,
                     trace := Event.read_until_eof buffer_size
                       :: Event.Esys_TR_Deserialize sctx.esys_ctx buffer buffer_size d.1 d.2
                       :: a.2 }
      | (ReadOutcome.failed, bio1) =>
          some { ret := 0, sctx := { sctx with bio := some bio1 },
                 trace := Event.read_until_eof (-1) :: load_error1 pkey }
      | (ReadOutcome.undefined, _) => none
      | (ReadOutcome.unfinished, _) => none
  | none =>
      let d := env.Esys_TR_FromTPMPublic sctx.handle
      let pkey1 : TPM2_PKEY := { pkey with object := d.2 }
      let sctx1 : TPM2_OBJECT_CTX := { sctx with load_done := 1 }
      if TPM2_CHECK_RC d.1 then
        some { ret := 0, sctx := sctx1,
               trace := Event.Esys_TR_FromTPMPublic sctx.esys_ctx sctx.handle d.1 d.2
                 :: Event.TPM2_ERROR_raise sctx.core TPM2_ERR.CANNOT_LOAD_KEY
                 :: load_error1 pkey1 }
      else
        let a := load_authorize env sctx1 pkey1
        some { ret := a.1, sctx := sctx1,
               trace := Event.Esys_TR_FromTPMPublic sctx.esys_ctx sctx.handle d.1 d.2 :: a.2 }

/-! ## `tpm2_object_eof` and `tpm2_object_close` -/

/-- The function `tpm2_object_eof(ctx)`. -/
def tpm2_object_eof (sctx : TPM2_OBJECT_CTX) : Int :=
  let stream : Bool :=
    match sctx.bio with
    | some bio => BIO_eof bio != 0
    | none => false
  if stream || sctx.load_done != 0 then 1 else 0

/-- The function `tpm2_object_close(ctx)`, `none` being the `NULL` context: the return value
and the calls made. -/
def tpm2_object_close (ctx : Option TPM2_OBJECT_CTX) : Int × List Event :=
  match ctx with
  | none => (0, [])
  | some sctx => (1, [Event.BIO_free sctx.bio, Event.clear_free_ctx sctx])

/-! ## Reachable session states -/

/-- The session states the loader can be in, each with a record of whether a load has already
been performed on the session: a context is created by `tpm2_object_open` or
`tpm2_object_attach`, and changed only by `tpm2_object_load`. -/
inductive Reachable (ULONG_MAX : Nat) : TPM2_OBJECT_CTX → Bool → Prop where
  | opened (fs : List Char → Option bio_st) (cprov : TPM2_PROVIDER_CTX) (uri : List Char)
      (ctx : TPM2_OBJECT_CTX) :
      (tpm2_object_open ULONG_MAX fs cprov uri).1 = some ctx → Reachable ULONG_MAX ctx false
  | attached (cprov : TPM2_PROVIDER_CTX) (cin_bio : Option bio_st) (ctx : TPM2_OBJECT_CTX) :
      tpm2_object_attach cprov cin_bio = some ctx → Reachable ULONG_MAX ctx false
  | loaded (env : LoadEnv) (ctx : TPM2_OBJECT_CTX) (before : Bool) (r : LoadResult) :
      Reachable ULONG_MAX ctx before → tpm2_object_load env ctx = some r →
      Reachable ULONG_MAX r.sctx true

/-! ## Reading traces -/

/-- Calls made to the device session (the ESYS API). -/
def Event.isDevice : Event → Bool
  | Event.Esys_TR_Deserialize _ _ _ _ _ => true
  | Event.Esys_TR_FromTPMPublic _ _ _ _ => true
  | Event.Esys_TR_SetAuth _ _ _ _ => true
  | Event.Esys_ReadPublic _ _ _ => true
  | Event.Esys_TR_Close _ _ => true
  | _ => false

/-- Calls of `Esys_TR_FromTPMPublic`, the binding of a persistent handle. -/
def Event.isBind : Event → Bool
  | Event.Esys_TR_FromTPMPublic _ _ _ _ => true
  | _ => false

/-- Calls of the passphrase callback. -/
def Event.isPwCb : Event → Bool
  | Event.pw_cb _ _ _ => true
  | _ => false

/-- Calls of the passphrase callback that reported failure. -/
def Event.isPwCbFailure : Event → Bool
  | Event.pw_cb _ ret _ => ret == 0
  | _ => false

/-- Calls of `Esys_TR_SetAuth`. -/
def Event.isSetAuth : Event → Bool
  | Event.Esys_TR_SetAuth _ _ _ _ => true
  | _ => false

/-- Calls of the object-emission callback. -/
def Event.isObjectCb : Event → Bool
  | Event.object_cb _ _ => true
  | _ => false

/-- Calls of `Esys_TR_Close`. -/
def Event.isClose : Event → Bool
  | Event.Esys_TR_Close _ _ => true
  | _ => false

/-- Releases of the descriptor. -/
def Event.isFreePkey : Event → Bool
  | Event.clear_free_pkey _ => true
  | _ => false

/-- The handle a successful acquisition call produced. -/
def Event.acquired : Event → Option ESYS_TR
  | Event.Esys_TR_Deserialize _ _ _ rc object => if rc = 0 then some object else none
  | Event.Esys_TR_FromTPMPublic _ _ rc object => if rc = 0 then some object else none
  | _ => none

/-- Calls of the steps before emission that reported failure: acquisition (reading the
stream, deserializing, binding), authorization (passphrase callback, `Esys_TR_SetAuth`), the
public read, the classification. -/
def Event.stepFailed : Event → Bool
  | Event.read_until_eof ret => decide (ret < 0)
  | Event.Esys_TR_Deserialize _ _ _ rc _ => rc != 0
  | Event.Esys_TR_FromTPMPublic _ _ rc _ => rc != 0
  | Event.pw_cb _ ret _ => ret == 0
  | Event.Esys_TR_SetAuth _ _ _ rc => rc != 0
  | Event.Esys_ReadPublic _ _ rc => rc != 0
  | Event.tpm2_openssl_type _ keytype => keytype.isNone
  | _ => false

/-! ## Sample collaborators, used to exhibit concrete runs -/

/-- The limits of an implementation with a 64-bit `unsigned long` (LP64). -/
def lp64 : C_LIMITS := { ULONG_MAX := 18446744073709551615, ULONG_MAX_ge := by decide }

/-- A provider context. -/
def sample_provctx : TPM2_PROVIDER_CTX := { core := 1, esys_ctx := 2, capability := 3 }

/-- A device and callbacks for which every step succeeds, with the object callback returning
`cb_ret` and the passphrase callback returning `pw_ret`. -/
def sample_env (pw_ret cb_ret : Int) : LoadEnv :=
  { Esys_TR_Deserialize := fun _ _ => (0, 77)
    Esys_TR_FromTPMPublic := fun _ => (0, 78)
    pw_cb := fun _ => (pw_ret, [115, 101, 99], 3)
    Esys_TR_SetAuth := fun _ _ => 0
    Esys_ReadPublic := fun _ => (0, [1, 35])
    tpm2_openssl_type := fun _ => some "RSA".toList
    object_cb := fun _ => cb_ret }

/-- The device of `sample_env` with a failing public read. -/
def sample_env_read_fails : LoadEnv :=
  { sample_env 1 1 with Esys_ReadPublic := fun _ => (1, []) }

/-- A handle-backed session as opened from `handle:0x81000000`. -/
def sample_handle_ctx : TPM2_OBJECT_CTX :=
  { core := 1, esys_ctx := 2, capability := 3, has_pass := 0, handle := 2164260864,
    bio := none, load_done := 0 }

/-- A file system with one file, `/tmp/key.ref`, of five bytes delivered in two chunks. -/
def sample_fs (filename : List Char) : Option bio_st :=
  if filename = "/tmp/key.ref".toList then
    some { pending := [ReadItem.data [1, 2, 3], ReadItem.data [4, 5]], sticky := true,
           hit_end := false }
  else none

/-- The content of a file of 2 GiB: 2^31 zero bytes. -/
def two_gib_bytes : List Byte := List.replicate 2147483648 0

/-- A byte source holding `two_gib_bytes`, ready in one piece. -/
def two_gib_source : bio_st :=
  { pending := [ReadItem.data two_gib_bytes], sticky := true, hit_end := false }

/-- A source of five bytes in chunks of three and two, with an empty read in between. -/
def sample_source : bio_st :=
  { pending := [ReadItem.data [1, 2, 3], ReadItem.data [], ReadItem.data [4, 5]],
    sticky := true, hit_end := false }

/-- The same five bytes in one chunk, from a source that reports end-of-file at once. -/
def sample_source_one_chunk : bio_st :=
  { pending := [ReadItem.data [1, 2, 3, 4, 5]], sticky := false, hit_end := false }

/-- The descriptor built for `sample_handle_ctx` by the devices of `sample_env`. -/
def sample_pkey : TPM2_PKEY :=
  { core := 1, esys_ctx := 2, capability := 3, object := 78,
    data := { pub := [1, 35], privatetype := TPM2_PRIVATE_TYPE.KEY_TYPE_HANDLE,
              handle := 2164260864, emptyAuth := 1 } }

/-- The parameters with which the object callback is called for `sample_pkey`. -/
def sample_params : ObjectParams :=
  { object_type := 2, data_type := "RSA".toList, reference := sample_pkey }

/-- The run of `tpm2_object_load` on `sample_handle_ctx` in which every step succeeds and the
object callback returns `cb_ret`. -/
def sample_emitted_run (cb_ret : Int) : LoadResult :=
  { ret := cb_ret,
    sctx := { sample_handle_ctx with load_done := 1 },
    trace := [Event.Esys_TR_FromTPMPublic 2 2164260864 0 78,
              Event.Esys_ReadPublic 2 78 0,
              Event.tpm2_openssl_type sample_pkey.data (some "RSA".toList),
              Event.object_cb sample_params cb_ret] }

/-- The run of `tpm2_object_load` on `sample_handle_ctx` in which the public read fails. -/
def sample_read_failure_run : LoadResult :=
  { ret := 0,
    sctx := { sample_handle_ctx with load_done := 1 },
    trace := [Event.Esys_TR_FromTPMPublic 2 2164260864 0 78,
              Event.Esys_ReadPublic 2 78 1,
              Event.TPM2_ERROR_raise 1 TPM2_ERR.CANNOT_LOAD_KEY,
              Event.Esys_TR_Close 2 78,
              Event.clear_free_pkey
                { core := 1, esys_ctx := 2, capability := 3, object := 78,
                  data := { pub := [], privatetype := TPM2_PRIVATE_TYPE.KEY_TYPE_NONE,
                            handle := 0, emptyAuth := 1 } }] }

/-- The session opened from `object:/tmp/key.ref?pass` on `sample_fs`. -/
def sample_pass_ctx : TPM2_OBJECT_CTX :=
  { core := 1, esys_ctx := 2, capability := 3, has_pass := 1, handle := 0,
    bio := some { pending := [ReadItem.data [1, 2, 3], ReadItem.data [4, 5]], sticky := true,
                  hit_end := false },
    load_done := 0 }

theorem handle_chars : "handle:".toList = ['h', 'a', 'n', 'd', 'l', 'e', ':'] := rfl

theorem object_chars : "object:".toList = ['o', 'b', 'j', 'e', 'c', 't', ':'] := rfl

theorem pass_chars : "pass".toList = ['p', 'a', 's', 's'] := rfl

/-- The code points of the hexadecimal digits. -/
theorem isxdigit_toNat (c : Char) (h : isxdigit c = true) :
    (48 ≤ c.toNat ∧ c.toNat ≤ 57) ∨ (97 ≤ c.toNat ∧ c.toNat ≤ 102) ∨
      (65 ≤ c.toNat ∧ c.toNat ≤ 70) := by
  unfold isxdigit hexval at h
  split_ifs at h with h1 h2 h3
  · exact Or.inl h1
  · exact Or.inr (Or.inl h2)
  · exact Or.inr (Or.inr h3)
  · simp at h

theorem isxdigit_not_space (c : Char) (h : isxdigit c = true) : isspace c = false := by
  have := isxdigit_toNat c h
  simp only [isspace, Bool.or_eq_false_iff, Bool.and_eq_false_iff, beq_eq_false_iff_ne,
    decide_eq_false_iff_not]
  omega

/-- A hexadecimal digit is none of the characters `-`, `+`, `x`, `X`, `?`. -/
theorem isxdigit_ne (c : Char) (h : isxdigit c = true) :
    c ≠ '-' ∧ c ≠ '+' ∧ c ≠ 'x' ∧ c ≠ 'X' ∧ c ≠ '?' := by
  refine ⟨?_, ?_, ?_, ?_, ?_⟩ <;> (rintro rfl; revert h; decide)

theorem hexval_le (c : Char) : (hexval c).getD 0 ≤ 15 := by
  unfold hexval
  split_ifs <;> simp <;> omega

theorem hexaccum_foldl (h : List Char) : ∀ a : Nat,
    h.foldl (fun acc c => 16 * acc + (hexval c).getD 0) a
      = a * 16 ^ h.length + hex_value h := by
  induction h with
  | nil => intro a; simp [hex_value]
  | cons c t ih =>
    intro a
    simp only [List.foldl_cons, ih, hex_value, List.reverse_cons, List.map_append,
      List.map_cons, List.map_nil, Nat.ofDigits_append, Nat.ofDigits_singleton,
      List.length_map, List.length_reverse, List.length_cons]
    ring

/-- The accumulation `strtoul` performs yields the base-16 value. -/
theorem hexaccum_eq (h : List Char) : hexaccum h = hex_value h := by
  simp [hexaccum, hexaccum_foldl]

theorem hex_value_lt (h : List Char) : hex_value h < 16 ^ h.length := by
  have := Nat.ofDigits_lt_base_pow_length (b := 16)
    (l := h.reverse.map (fun c => (hexval c).getD 0)) (by omega)
    (by
      intro x hx
      simp only [List.mem_map, List.mem_reverse] at hx
      obtain ⟨c, _, rfl⟩ := hx
      have := hexval_le c
      omega)
  simpa [hex_value] using this

theorem strchr_none (s : List Char) (c : Char) (h : c ∉ s) : strchr s c = none := by
  induction s with
  | nil => rfl
  | cons a t ih =>
    simp only [List.mem_cons, not_or] at h
    simp only [strchr, if_neg (Ne.symm h.1), ih h.2]

/-- What `strchr` finds: the string splits at the first occurrence of the character. -/
theorem strchr_eq_some (s : List Char) (c : Char) (opts : List Char)
    (h : strchr s c = some opts) :
    ∃ pre post, s = pre ++ c :: post ∧ c ∉ pre ∧ opts = c :: post := by
  induction s with
  | nil => simp [strchr] at h
  | cons a t ih =>
    simp only [strchr] at h
    split_ifs at h with hac
    · subst hac
      simp only [Option.some.injEq] at h
      exact ⟨[], t, rfl, by simp, h.symm⟩
    · obtain ⟨pre, post, ht, hpre, ho⟩ := ih h
      refine ⟨a :: pre, post, by rw [ht]; rfl, ?_, ho⟩
      simp only [List.mem_cons, not_or]
      exact ⟨fun hca => hac hca.symm, hpre⟩

theorem strchr_eq_none (s : List Char) (c : Char) (h : strchr s c = none) : c ∉ s := by
  induction s with
  | nil => simp
  | cons a t ih =>
    simp only [strchr] at h
    split_ifs at h with hac
    simp only [List.mem_cons, not_or]
    exact ⟨fun hca => hac hca.symm, ih h⟩

theorem takeWhile_ne_split (pre post : List Char) (c : Char) (h : c ∉ pre) :
    (pre ++ c :: post).takeWhile (fun x => x != c) = pre := by
  induction pre with
  | nil => simp [List.takeWhile]
  | cons a t ih =>
    simp only [List.mem_cons, not_or] at h
    have hne : (a != c) = true := by simpa using fun hac => h.1 hac.symm
    simp only [List.cons_append, List.takeWhile_cons, hne, if_true, ih h.2]

/-- When the option part lets the locator through: `baseuri` is the text before the first
`?`; without a `?` the context is unchanged, and with one the text after it begins with `pass`
and `has_pass` is set. -/
theorem open_options_some (ctx ctx1 : TPM2_OBJECT_CTX) (uri baseuri : List Char)
    (h : open_options ctx uri = some (baseuri, ctx1)) :
    ('?' ∉ uri ∧ baseuri = uri ∧ ctx1 = ctx) ∨
    (∃ rest, uri = baseuri ++ "?pass".toList ++ rest ∧ '?' ∉ baseuri ∧
      ctx1 = { ctx with has_pass := 1 }) := by
  unfold open_options at h
  split at h
  · rename_i opts hs
    obtain ⟨pre, post, huri, hpre, hopts⟩ := strchr_eq_some _ _ _ hs
    split_ifs at h with hp
    simp only [Option.some.injEq, Prod.mk.injEq] at h
    right
    subst hopts
    rw [huri, takeWhile_ne_split pre post _ hpre] at h
    obtain ⟨hb, hc⟩ := h
    subst hb
    simp only [strncmp_eq, List.drop_succ_cons, List.drop_zero, pass_chars, beq_iff_eq] at hp
    have hpost : post = post.take 4 ++ post.drop 4 := (List.take_append_drop 4 post).symm
    refine ⟨post.drop 4, ?_, hpre, hc.symm⟩
    rw [huri]
    have : "?pass".toList = '?' :: ['p', 'a', 's', 's'] := rfl
    rw [this]
    simp only [List.take] at hp
    rw [← hp]
    simp
  · rename_i hs
    simp only [Option.some.injEq, Prod.mk.injEq] at h
    exact Or.inl ⟨strchr_eq_none _ _ hs, h.1.symm, h.2.symm⟩

/-- On a non-empty string of hexadecimal digits whose value fits, `strtoul` converts the whole
string to its base-16 value. -/
theorem strtoul_hex (ULONG_MAX : Nat) (h : List Char) (hne : h ≠ [])
    (hx : ∀ c ∈ h, isxdigit c = true) (hv : hex_value h ≤ ULONG_MAX) :
    strtoul ULONG_MAX h = (hex_value h, []) := by
  obtain ⟨c, t, rfl⟩ := List.exists_cons_of_ne_nil hne
  have hc := hx c (List.mem_cons_self _ _)
  have hsp : (c :: t).dropWhile isspace = c :: t := by
    simp [List.dropWhile, isxdigit_not_space c hc]
  have hsg : strtoul_sign (c :: t) = (false, c :: t) := by
    simp [strtoul_sign, (isxdigit_ne c hc).1, (isxdigit_ne c hc).2.1]
  have h0x : strtoul_0x (c :: t) = c :: t := by
    match t, hx with
    | [], _ => rfl
    | [_], _ => rfl
    | x :: d :: t1, hx =>
      have hxx := isxdigit_ne x (hx x (by simp))
      simp [strtoul_0x, hxx.2.2.1, hxx.2.2.2.1]
  have htw : (c :: t).takeWhile isxdigit = c :: t := List.takeWhile_eq_self_iff.mpr hx
  have hdw : (c :: t).dropWhile isxdigit = [] := List.dropWhile_eq_nil_iff.mpr hx
  simp only [strtoul, hsp, hsg, h0x, htw, hdw, hexaccum_eq]
  simp [Nat.not_lt.mpr hv]

/-- The sign that `strtoul_sign` takes off, and what it leaves. -/
theorem strtoul_sign_split (s : List Char) :
    ∃ sign, s = sign ++ (strtoul_sign s).2 ∧
      ((sign = [] ∧ (strtoul_sign s).1 = false) ∨ (sign = ['+'] ∧ (strtoul_sign s).1 = false) ∨
        (sign = ['-'] ∧ (strtoul_sign s).1 = true)) := by
  cases s with
  | nil => exact ⟨[], rfl, Or.inl ⟨rfl, rfl⟩⟩
  | cons c t =>
    simp only [strtoul_sign]
    split_ifs with h1 h2
    · subst h1; exact ⟨['-'], rfl, Or.inr (Or.inr ⟨rfl, rfl⟩)⟩
    · subst h2; exact ⟨['+'], rfl, Or.inr (Or.inl ⟨rfl, rfl⟩)⟩
    · exact ⟨[], rfl, Or.inl ⟨rfl, rfl⟩⟩

/-- The `0x` that `strtoul_0x` takes off, and what it leaves. -/
theorem strtoul_0x_split (s : List Char) :
    ∃ pre, s = pre ++ strtoul_0x s ∧ (pre = [] ∨ pre = ['0', 'x'] ∨ pre = ['0', 'X']) := by
  match s with
  | [] => exact ⟨[], rfl, Or.inl rfl⟩
  | [_] => exact ⟨[], rfl, Or.inl rfl⟩
  | [_, _] => exact ⟨[], rfl, Or.inl rfl⟩
  | z :: x :: d :: t =>
    simp only [strtoul_0x]
    split_ifs with h
    · obtain ⟨hz, hx | hx, _⟩ := h
      · subst hz hx; exact ⟨['0', 'x'], rfl, Or.inr (Or.inl rfl)⟩
      · subst hz hx; exact ⟨['0', 'X'], rfl, Or.inr (Or.inr rfl)⟩
    · exact ⟨[], rfl, Or.inl rfl⟩

/-- Soundness of `strtoul` for the grammar: when it consumes a non-empty text whole, the text
is a number of the grammar with the value returned. -/
theorem strtoul_whole (ULONG_MAX : Nat) (r : List Char) (hend : (strtoul ULONG_MAX r).2 = []) :
    r = [] ∨ StrtoulNumber ULONG_MAX r (strtoul ULONG_MAX r).1 := by
  obtain ⟨sign, hsign, hsg⟩ := strtoul_sign_split (r.dropWhile isspace)
  obtain ⟨pre, hpre, hpx⟩ := strtoul_0x_split (strtoul_sign (r.dropWhile isspace)).2
  have hws : r = r.takeWhile isspace ++ r.dropWhile isspace :=
    (List.takeWhile_append_dropWhile isspace r).symm
  have hbody := List.takeWhile_append_dropWhile isxdigit
    (strtoul_0x (strtoul_sign (r.dropWhile isspace)).2)
  simp only [strtoul] at hend ⊢
  by_cases hd : (strtoul_0x (strtoul_sign (r.dropWhile isspace)).2).takeWhile isxdigit = []
  · simp only [hd, if_true] at hend
    exact Or.inl hend
  · right
    simp only [hd, if_false] at hend ⊢
    have hrest : (strtoul_0x (strtoul_sign (r.dropWhile isspace)).2).dropWhile isxdigit = [] := by
      split_ifs at hend <;> exact hend
    rw [hrest, List.append_nil] at hbody
    refine ⟨r.takeWhile isspace, sign, pre,
      (strtoul_0x (strtoul_sign (r.dropWhile isspace)).2).takeWhile isxdigit, ?_, ?_, ?_, hpx,
      hd, ?_, ?_⟩
    · rw [hbody, List.append_assoc, List.append_assoc, ← hpre, ← hsign]
      exact hws
    · intro c hc
      exact (List.mem_takeWhile_imp hc)
    · rcases hsg with h | h | h
      · exact Or.inl h.1
      · exact Or.inr (Or.inl h.1)
      · exact Or.inr (Or.inr h.1)
    · intro c hc
      exact (List.mem_takeWhile_imp hc)
    · rw [hexaccum_eq]
      clear hsign hpre hws hbody hend hrest hd
      rcases hsg with h | h | h <;> rw [h.1, h.2] <;> split_ifs <;>
        first | rfl | (exfalso; simp at *)

theorem dropWhile_isspace_append (ws l : List Char) (hws : ∀ c ∈ ws, isspace c = true) :
    (ws ++ l).dropWhile isspace = l.dropWhile isspace := by
  induction ws with
  | nil => rfl
  | cons a t ih =>
    have ha := hws a (List.mem_cons_self _ _)
    simp only [List.cons_append, List.dropWhile_cons, ha, if_true]
    exact ih (fun c hc => hws c (List.mem_cons_of_mem _ hc))

theorem strtoul_0x_hex (l : List Char) (hx : ∀ c ∈ l, isxdigit c = true) :
    strtoul_0x l = l := by
  match l, hx with
  | [], _ => rfl
  | [_], _ => rfl
  | [_, _], _ => rfl
  | z :: x :: d :: t, hx =>
    have hxx := isxdigit_ne x (hx x (by simp))
    simp [strtoul_0x, hxx.2.2.1, hxx.2.2.2.1]

/-- Completeness of `strtoul` for the grammar: a number of the grammar is consumed whole and
converted to its value. -/
theorem strtoul_of_number (ULONG_MAX : Nat) (r : List Char) (v : Nat)
    (h : StrtoulNumber ULONG_MAX r v) : strtoul ULONG_MAX r = (v, []) := by
  obtain ⟨ws, sign, pre, digits, hr, hws, hsign, hpre, hne, hx, hv⟩ := h
  obtain ⟨d, t, rfl⟩ := List.exists_cons_of_ne_nil hne
  have hd := hx d (List.mem_cons_self _ _)
  have hdsp := isxdigit_not_space d hd
  have hdne := isxdigit_ne d hd
  have h0sp : isspace '0' = false := by decide
  have hpsp : isspace '+' = false := by decide
  have hmsp : isspace '-' = false := by decide
  have htw : (d :: t).takeWhile isxdigit = d :: t := List.takeWhile_eq_self_iff.mpr hx
  have hdw : (d :: t).dropWhile isxdigit = [] := List.dropWhile_eq_nil_iff.mpr hx
  have h0x := strtoul_0x_hex (d :: t) hx
  have hxd : strtoul_0x ('0' :: 'x' :: d :: t) = d :: t := by simp [strtoul_0x, hd]
  have hXd : strtoul_0x ('0' :: 'X' :: d :: t) = d :: t := by simp [strtoul_0x, hd]
  have hs0 : strtoul_sign (d :: t) = (false, d :: t) := by
    simp [strtoul_sign, hdne.1, hdne.2.1]
  have hs1 : ∀ l : List Char, strtoul_sign ('0' :: l) = (false, '0' :: l) := by
    intro l; simp [strtoul_sign]
  have hsm : ∀ l : List Char, strtoul_sign ('-' :: l) = (true, l) := by
    intro l; simp [strtoul_sign]
  have hsp : ∀ l : List Char, strtoul_sign ('+' :: l) = (false, l) := by
    intro l; simp [strtoul_sign]
  subst hr
  simp only [strtoul, List.append_assoc, dropWhile_isspace_append ws _ hws]
  rcases hsign with rfl | rfl | rfl <;> rcases hpre with rfl | rfl | rfl <;>
    simp only [List.nil_append, List.cons_append, List.dropWhile_cons, hdsp, h0sp, hpsp, hmsp,
      Bool.false_eq_true, if_false, hs0, hs1, hsm, hsp, h0x, hxd, hXd, htw, hdw, hexaccum_eq,
      hv] <;>
    simp <;> split_ifs <;> rfl

/-- The session context a successful `tpm2_object_open` starts from. -/
theorem open_handle_hex (ULONG_MAX : Nat) (fs : List Char → Option bio_st)
    (cprov : TPM2_PROVIDER_CTX) (h : List Char) (hU : UINT32_MAX ≤ ULONG_MAX)
    (hne : h ≠ []) (hlen : h.length ≤ 8) (hx : ∀ c ∈ h, isxdigit c = true) :
    tpm2_object_open ULONG_MAX fs cprov ("handle:".toList ++ h) =
      (some { core := cprov.core, esys_ctx := cprov.esys_ctx, capability := cprov.capability,
              has_pass := 0, handle := hex_value h, bio := none, load_done := 0 }, []) := by
  have hval : hex_value h ≤ UINT32_MAX := by
    have h1 := hex_value_lt h
    have h2 : 16 ^ h.length ≤ 16 ^ 8 := Nat.pow_le_pow_right (by omega) hlen
    have h3 : (16 : Nat) ^ 8 = 4294967296 := by norm_num
    unfold UINT32_MAX
    omega
  have hq : '?' ∉ "handle:".toList ++ h := by
    rw [handle_chars]
    simp only [List.mem_append, not_or]
    exact ⟨by decide, fun hm => (isxdigit_ne _ (hx _ hm)).2.2.2.2 rfl⟩
  have hst := strtoul_hex ULONG_MAX h hne hx (le_trans hval hU)
  have hobj : strncmp_eq ("handle:".toList ++ h) "object:".toList 7 = false := by
    rw [handle_chars, object_chars]
    simp [strncmp_eq]
  have hhan : strncmp_eq ("handle:".toList ++ h) "handle:".toList 7 = true := by
    rw [handle_chars]
    simp [strncmp_eq]
  have hdrop : ("handle:".toList ++ h).drop 7 = h := by
    rw [handle_chars]; rfl
  simp only [tpm2_object_open, open_options, strchr_none _ _ hq, hobj, hhan, hdrop, hst]
  simp [Nat.not_lt.mpr hval]

/-- In a source without read errors, whose bytes together with those already read stay
1087 below `INT_MAX`, the loop returns all bytes in order, however they are chunked. -/
theorem read_loop_returned (fuel : Nat) :
    ∀ (pending : List ReadItem) (sticky hit_end : Bool) (size len : Int) (buffer : List Byte),
      no_read_error pending = true → read_cost pending < fuel → 0 ≤ len → len ≤ size →
      size ≤ INT_MAX → len + (source_bytes pending).length + 1087 ≤ INT_MAX →
      ∃ size1 bio1,
        read_loop fuel ⟨pending, sticky, hit_end⟩ size len buffer =
          (ReadOutcome.returned (len + (source_bytes pending).length)
            (buffer ++ source_bytes pending) size1, bio1) ∧
        len + (source_bytes pending).length ≤ size1 ∧ size1 ≤ INT_MAX ∧ BIO_eof bio1 = 1 := by
  induction fuel with
  | zero => intro pending _ _ _ _ _ _ hc; omega
  | succ fuel ih =>
    intro pending sticky hit_end size len buffer hne hc h0 hls hsz hL
    have hnov : ¬ (size - len < 64 ∧ INT_MAX < size + 1024) := by
      unfold INT_MAX at *; omega
    simp only [read_loop, if_neg hnov]
    generalize hs1 : (if size - len < 64 then size + 1024 else size) = size1
    have hd : 64 ≤ size1 - len := by
      rw [← hs1]; split_ifs <;> omega
    have hs1max : size1 ≤ INT_MAX := by
      rw [← hs1]; unfold INT_MAX at *; split_ifs <;> omega
    cases pending with
    | nil =>
      refine ⟨size1, ⟨[], sticky, true⟩, ?_, ?_, hs1max, ?_⟩
      · simp [BIO_read, BIO_eof, source_bytes]
      · simp [source_bytes]; omega
      · simp [BIO_eof]
    | cons it rest =>
      cases it with
      | error code => simp [no_read_error] at hne
      | data bytes =>
        simp only [no_read_error] at hne
        simp only [read_cost] at hc
        simp only [source_bytes, List.length_append, Nat.cast_add] at hL ⊢
        by_cases hfit : bytes.length ≤ (size1 - len).toNat
        · simp only [BIO_read, if_pos hfit]
          have hres : ¬ ((bytes.length : Int) < 0) := by omega
          simp only [if_neg hres]
          by_cases heof : BIO_eof ⟨rest, sticky, hit_end⟩ ≠ 0
          · have hrest : rest = [] := by
              cases rest with
              | nil => rfl
              | cons a t => simp [BIO_eof] at heof
            subst hrest
            refine ⟨size1, ⟨[], sticky, hit_end⟩, ?_, ?_, hs1max, ?_⟩
            · simp [if_pos heof, source_bytes]
            · simp [source_bytes]; omega
            · simp only [BIO_eof] at heof ⊢
              split at heof <;> simp_all
          · simp only [if_neg heof]
            obtain ⟨size2, bio2, hrun, hle, hmax, he⟩ :=
              ih rest sticky hit_end size1 (len + bytes.length) (buffer ++ bytes) hne
                (by omega) (by omega) (by omega) hs1max (by omega)
            refine ⟨size2, bio2, ?_, by omega, hmax, he⟩
            rw [hrun]; simp [List.append_assoc, add_assoc]
        · simp only [BIO_read, if_neg hfit]
          have hres : ¬ (((size1 - len).toNat : Int) < 0) := by omega
          simp only [if_neg hres]
          have heof : ¬ (BIO_eof ⟨ReadItem.data (bytes.drop (size1 - len).toNat) :: rest,
              sticky, hit_end⟩ ≠ 0) := by simp [BIO_eof]
          simp only [if_neg heof]
          have hdl : (bytes.drop (size1 - len).toNat).length
              = bytes.length - (size1 - len).toNat := by simp
          obtain ⟨size2, bio2, hrun, hle, hmax, he⟩ :=
            ih (ReadItem.data (bytes.drop (size1 - len).toNat) :: rest) sticky hit_end size1
              (len + (size1 - len).toNat) (buffer ++ bytes.take (size1 - len).toNat)
              (by simpa [no_read_error] using hne)
              (by simp only [read_cost, hdl]; omega) (by omega) (by omega) hs1max
              (by simp only [source_bytes, List.length_append, hdl, Nat.cast_add]; omega)
          simp only [source_bytes, List.length_append, hdl, Nat.cast_add] at hrun hle
          refine ⟨size2, bio2, ?_, by omega, hmax, he⟩
          rw [hrun]
          have e1 : len + ((size1 - len).toNat : Int)
              + (((bytes.length - (size1 - len).toNat : Nat) : Int)
                + ((source_bytes rest).length : Int))
              = len + ((bytes.length : Int) + ((source_bytes rest).length : Int)) := by omega
          have e2 : buffer ++ bytes.take (size1 - len).toNat
              ++ (bytes.drop (size1 - len).toNat ++ source_bytes rest)
              = buffer ++ (bytes ++ source_bytes rest) := by
            rw [List.append_assoc, ← List.append_assoc (bytes.take _), List.take_append_drop]
          rw [e1, e2]

/-- The iteration bound of the embedding is never what ends the loop. -/
theorem read_loop_finishes (fuel : Nat) :
    ∀ (pending : List ReadItem) (sticky hit_end : Bool) (size len : Int) (buffer : List Byte),
      read_cost pending < fuel → len ≤ size →
      (read_loop fuel ⟨pending, sticky, hit_end⟩ size len buffer).1 ≠ ReadOutcome.unfinished := by
  induction fuel with
  | zero => intro pending _ _ _ _ _ hc; omega
  | succ fuel ih =>
    intro pending sticky hit_end size len buffer hc hls
    simp only [read_loop]
    by_cases hov : size - len < 64 ∧ INT_MAX < size + 1024
    · simp only [if_pos hov]; simp
    · simp only [if_neg hov]
      generalize hs1 : (if size - len < 64 then size + 1024 else size) = size1
      have hd : 64 ≤ size1 - len := by
        rw [← hs1]; split_ifs <;> omega
      cases pending with
      | nil => simp [BIO_read, BIO_eof]
      | cons it rest =>
        cases it with
        | error code =>
          have hneg : -((code : Int) + 1) < 0 := by omega
          simp only [BIO_read, if_pos hneg]; simp
        | data bytes =>
          simp only [read_cost] at hc
          by_cases hfit : bytes.length ≤ (size1 - len).toNat
          · simp only [BIO_read, if_pos hfit]
            have hres : ¬ ((bytes.length : Int) < 0) := by omega
            simp only [if_neg hres]
            by_cases heof : BIO_eof ⟨rest, sticky, hit_end⟩ ≠ 0
            · simp only [if_pos heof]; simp
            · simp only [if_neg heof]
              exact ih rest sticky hit_end size1 (len + bytes.length) (buffer ++ bytes)
                (by omega) (by omega)
          · simp only [BIO_read, if_neg hfit]
            have hres : ¬ (((size1 - len).toNat : Int) < 0) := by omega
            simp only [if_neg hres]
            have heof : ¬ (BIO_eof ⟨ReadItem.data (bytes.drop (size1 - len).toNat) :: rest,
                sticky, hit_end⟩ ≠ 0) := by simp [BIO_eof]
            simp only [if_neg heof]
            exact ih _ sticky hit_end size1 _ _
              (by simp only [read_cost, List.length_drop]; omega) (by omega)

/-- In a source without read errors that holds, together with the bytes already read, more
than `INT_MAX` bytes, the loop reaches `size += 1024` with `size` within 1024 of `INT_MAX`. -/
theorem read_loop_undefined (fuel : Nat) :
    ∀ (pending : List ReadItem) (sticky hit_end : Bool) (size len : Int) (buffer : List Byte),
      no_read_error pending = true → read_cost pending < fuel → len ≤ size →
      size ≤ INT_MAX → INT_MAX < len + (source_bytes pending).length →
      (read_loop fuel ⟨pending, sticky, hit_end⟩ size len buffer).1 = ReadOutcome.undefined := by
  induction fuel with
  | zero => intro pending _ _ _ _ _ _ hc; omega
  | succ fuel ih =>
    intro pending sticky hit_end size len buffer hne hc hls hsz hL
    simp only [read_loop]
    by_cases hov : size - len < 64 ∧ INT_MAX < size + 1024
    · simp only [if_pos hov]
    · simp only [if_neg hov]
      generalize hs1 : (if size - len < 64 then size + 1024 else size) = size1
      have hd : 64 ≤ size1 - len := by
        rw [← hs1]; split_ifs <;> omega
      have hs1max : size1 ≤ INT_MAX := by
        rw [← hs1]; unfold INT_MAX at *; split_ifs <;> omega
      cases pending with
      | nil => simp [source_bytes] at hL; omega
      | cons it rest =>
        cases it with
        | error code => simp [no_read_error] at hne
        | data bytes =>
          simp only [no_read_error] at hne
          simp only [read_cost] at hc
          simp only [source_bytes, List.length_append, Nat.cast_add] at hL
          by_cases hfit : bytes.length ≤ (size1 - len).toNat
          · simp only [BIO_read, if_pos hfit]
            have hres : ¬ ((bytes.length : Int) < 0) := by omega
            simp only [if_neg hres]
            have hrest : rest ≠ [] := by
              rintro rfl
              simp [source_bytes] at hL; omega
            have heof : ¬ (BIO_eof ⟨rest, sticky, hit_end⟩ ≠ 0) := by
              cases rest with
              | nil => exact absurd rfl hrest
              | cons a t => simp [BIO_eof]
            simp only [if_neg heof]
            exact ih rest sticky hit_end size1 (len + bytes.length) (buffer ++ bytes) hne
              (by omega) (by omega) hs1max (by omega)
          · simp only [BIO_read, if_neg hfit]
            have hres : ¬ (((size1 - len).toNat : Int) < 0) := by omega
            simp only [if_neg hres]
            have heof : ¬ (BIO_eof ⟨ReadItem.data (bytes.drop (size1 - len).toNat) :: rest,
                sticky, hit_end⟩ ≠ 0) := by simp [BIO_eof]
            simp only [if_neg heof]
            have hdl : (bytes.drop (size1 - len).toNat).length
                = bytes.length - (size1 - len).toNat := by simp
            exact ih _ sticky hit_end size1 _ _ (by simpa [no_read_error] using hne)
              (by simp only [read_cost, hdl]; omega) (by omega) hs1max
              (by simp only [source_bytes, List.length_append, hdl, Nat.cast_add]; omega)

/-- The function `read_until_eof` always ends: by returning, by failing, or at the overflow
of `size`. -/
theorem read_until_eof_finishes (bio : bio_st) :
    (read_until_eof bio).1 ≠ ReadOutcome.unfinished := by
  obtain ⟨pending, sticky, hit_end⟩ := bio
  exact read_loop_finishes _ pending sticky hit_end 1024 0 [] (by simp) (by omega)

/-- A source without read error that holds more than `INT_MAX` bytes drives `read_until_eof`
into the overflow of `size`. -/
theorem read_until_eof_undefined (bio : bio_st) (hne : no_read_error bio.pending = true)
    (hL : INT_MAX < ((source_bytes bio.pending).length : Int)) :
    (read_until_eof bio).1 = ReadOutcome.undefined := by
  obtain ⟨pending, sticky, hit_end⟩ := bio
  exact read_loop_undefined (read_cost pending + 1) pending sticky hit_end 1024 0 [] hne
    (by omega) (by omega) (by unfold INT_MAX; omega) (by simpa using hL)

/-- C4, the claim as stated fails: for a source of 2^31 bytes without read error the function
does not return the length; its `int` counters cannot hold it, and `size += 1024` overflows. -/
theorem read_until_eof_two_gib_overflows :
    no_read_error two_gib_source.pending = true ∧
    (source_bytes two_gib_source.pending).length = 2147483648 ∧
    (read_until_eof two_gib_source).1 = ReadOutcome.undefined := by
  have hlen : two_gib_bytes.length = 2147483648 := List.length_replicate _ _
  have hsrc : (source_bytes two_gib_source.pending).length = 2147483648 := by
    simp only [two_gib_source, source_bytes, List.append_nil, hlen]
  have hne : no_read_error two_gib_source.pending = true := by
    simp only [two_gib_source, no_read_error]
  refine ⟨hne, hsrc, ?_⟩
  exact read_until_eof_undefined two_gib_source hne (by rw [hsrc]; unfold INT_MAX; omega)

/-- C4 amended: for every byte source without read error whose total length `L` is at most
`INT_MAX - 1087`, in whatever chunks it delivers its bytes, `read_until_eof` returns `L` and a
buffer whose first `L` bytes are the bytes of the source in order, leaving the source at
end-of-file; every other such source with the same bytes gives the same length and bytes. -/
theorem read_until_eof_returns_source_bytes (bio : bio_st)
    (hne : no_read_error bio.pending = true)
    (hL : ((source_bytes bio.pending).length : Int) + 1087 ≤ INT_MAX) :
    (∃ size bio1,
      read_until_eof bio =
        (ReadOutcome.returned ((source_bytes bio.pending).length : Int)
          (source_bytes bio.pending) size, bio1) ∧
      ((source_bytes bio.pending).length : Int) ≤ size ∧ BIO_eof bio1 = 1) ∧
    ∀ bio2 : bio_st, no_read_error bio2.pending = true →
      source_bytes bio2.pending = source_bytes bio.pending →
      ∃ size2 bio3,
        read_until_eof bio2 =
          (ReadOutcome.returned ((source_bytes bio.pending).length : Int)
            (source_bytes bio.pending) size2, bio3) := by
  have key : ∀ b : bio_st, no_read_error b.pending = true →
      ((source_bytes b.pending).length : Int) + 1087 ≤ INT_MAX →
      ∃ size bio1,
        read_until_eof b =
          (ReadOutcome.returned ((source_bytes b.pending).length : Int)
            (source_bytes b.pending) size, bio1) ∧
        ((source_bytes b.pending).length : Int) ≤ size ∧ BIO_eof bio1 = 1 := by
    intro b hb hbL
    obtain ⟨pending, sticky, hit_end⟩ := b
    obtain ⟨size, bio1, hrun, hle, _, he⟩ :=
      read_loop_returned (read_cost pending + 1) pending sticky hit_end 1024 0 [] hb
        (by omega) (by omega) (by omega) (by unfold INT_MAX; omega) (by simpa using hbL)
    refine ⟨size, bio1, ?_, by simpa using hle, he⟩
    simpa [read_until_eof] using hrun
  refine ⟨key bio hne hL, ?_⟩
  intro bio2 hne2 hsame
  obtain ⟨size2, bio3, hrun, _, _⟩ := key bio2 hne2 (by rw [hsame]; exact hL)
  exact ⟨size2, bio3, by rw [hrun, hsame]⟩

/-- Five bytes in three reads, and the same five bytes in one read. -/
theorem read_until_eof_returns_source_bytes_witness :
    (∃ size bio1,
      read_until_eof sample_source = (ReadOutcome.returned 5 [1, 2, 3, 4, 5] size, bio1) ∧
      (5 : Int) ≤ size ∧ BIO_eof bio1 = 1) ∧
    ∃ size2 bio3,
      read_until_eof sample_source_one_chunk
        = (ReadOutcome.returned 5 [1, 2, 3, 4, 5] size2, bio3) :=
  have h := read_until_eof_returns_source_bytes sample_source (by decide) (by decide)
  ⟨h.1, h.2 sample_source_one_chunk (by decide) (by decide)⟩

/-- C5: a `tpm2_object_load` call ends in a defined way unless `read_until_eof` overflows; and
when one of its steps before emission reports failure (acquisition, authorization, public
read, classification), it returns 0, the object callback is not called, and a handle that had
been acquired is closed through the device session of the context: `Esys_TR_Close` on that
handle is the last call before the descriptor is freed at the return, and no other handle is
closed. -/
theorem load_failure_returns_zero_and_releases (env : LoadEnv) (sctx : TPM2_OBJECT_CTX) :
    (tpm2_object_load env sctx = none ↔
      ∃ bio, sctx.bio = some bio ∧ (read_until_eof bio).1 = ReadOutcome.undefined) ∧
    ∀ r : LoadResult, tpm2_object_load env sctx = some r →
      (∃ e ∈ r.trace, e.stepFailed = true) →
      r.ret = 0 ∧ (∀ e ∈ r.trace, e.isObjectCb = false) ∧
      ∀ object : ESYS_TR, (∃ e ∈ r.trace, e.acquired = some object) →
        r.trace.dropLast.getLast? = some (Event.Esys_TR_Close sctx.esys_ctx object) ∧
        (∃ pkey, r.trace.getLast? = some (Event.clear_free_pkey pkey)) ∧
        ∀ e ∈ r.trace, e.isClose = true → e = Event.Esys_TR_Close sctx.esys_ctx object := by
  refine ⟨?_, ?_⟩
  · unfold tpm2_object_load
    cases hb : sctx.bio with
    | none => simp only []; split_ifs <;> simp
    | some bio =>
      have hfin := read_until_eof_finishes bio
      rcases hr : read_until_eof bio with ⟨out, bio1⟩
      rw [hr] at hfin
      cases out with
      | returned len buffer size => simp only [hr]; split_ifs <;> simp [hr]
      | failed => simp [hr]
      | undefined => simp [hr]
      | unfinished => simp at hfin
  · intro r h hfail
    simp only [tpm2_object_load, TPM2_CHECK_RC, load_authorize, load_describe, load_error1,
      load_error2, new_pkey] at h
    repeat' split at h
    all_goals first
      | (cases h; done)
      | (simp only [Option.some.injEq] at h
         subst h
         simp only [List.mem_cons, List.mem_singleton, List.not_mem_nil, or_false,
           exists_eq_or_imp, exists_eq_left, forall_eq_or_imp, forall_eq,
           Event.stepFailed, Event.isObjectCb, Event.acquired, Event.isClose,
           List.dropLast, List.getLast?_cons_cons,
           List.getLast?_singleton] at hfail ⊢
         simp_all <;> omega)

/-- The public read fails after the handle 78 was acquired: the load returns 0 without
calling the object callback, and closes handle 78 before it frees the descriptor. -/
theorem load_failure_returns_zero_and_releases_witness :
    tpm2_object_load sample_env_read_fails sample_handle_ctx = some sample_read_failure_run ∧
    sample_read_failure_run.ret = 0 ∧
    (∀ e ∈ sample_read_failure_run.trace, e.isObjectCb = false) ∧
    sample_read_failure_run.trace.dropLast.getLast? = some (Event.Esys_TR_Close 2 78) ∧
    (∃ pkey, sample_read_failure_run.trace.getLast? = some (Event.clear_free_pkey pkey)) ∧
    ∀ e ∈ sample_read_failure_run.trace, e.isClose = true → e = Event.Esys_TR_Close 2 78 :=
  have h := (load_failure_returns_zero_and_releases sample_env_read_fails sample_handle_ctx).2
    sample_read_failure_run (by decide) (by decide)
  ⟨by decide, h.1, h.2.1, h.2.2 78 (by decide)⟩

/-- C6, what the code does once the object callback is reached: whatever the callback returns
is the result of `tpm2_object_load`, and the call has made no `Esys_TR_Close` and has not
freed the descriptor, although a handle was acquired. With a callback that returns 0 the load
fails while the handle and the descriptor stay allocated. -/
theorem load_callback_result_not_released (env : LoadEnv) (sctx : TPM2_OBJECT_CTX)
    (r : LoadResult) (params : ObjectParams) (ret : Int)
    (h : tpm2_object_load env sctx = some r)
    (hcb : Event.object_cb params ret ∈ r.trace) :
    r.ret = ret ∧
    (∃ e ∈ r.trace, e.acquired = some params.reference.object) ∧
    (∀ e ∈ r.trace, e.isClose = false ∧ e.isFreePkey = false) := by
  simp only [tpm2_object_load, TPM2_CHECK_RC, load_authorize, load_describe, load_error1,
    load_error2, new_pkey] at h
  repeat' split at h
  all_goals first
    | (cases h; done)
    | (simp only [Option.some.injEq] at h
       subst h
       simp only [List.mem_cons, List.mem_singleton, List.not_mem_nil, or_false,
         exists_eq_or_imp, exists_eq_left, forall_eq_or_imp, forall_eq,
         Event.acquired, Event.isClose, Event.isFreePkey] at hcb ⊢
       simp_all)

/-- All steps succeed and the object callback returns 0: the load returns 0, handle 78 is not
closed and the descriptor is not freed. -/
theorem load_callback_result_not_released_witness :
    tpm2_object_load (sample_env 1 0) sample_handle_ctx = some (sample_emitted_run 0) ∧
    (sample_emitted_run 0).ret = 0 ∧
    (∃ e ∈ (sample_emitted_run 0).trace, e.acquired = some 78) ∧
    (∀ e ∈ (sample_emitted_run 0).trace, e.isClose = false ∧ e.isFreePkey = false) :=
  ⟨by decide,
    load_callback_result_not_released (sample_env 1 0) sample_handle_ctx (sample_emitted_run 0)
      sample_params 0 (by decide) (by decide)⟩

/-- A freshly opened session has performed no load. -/
theorem open_load_done (ULONG_MAX : Nat) (fs : List Char → Option bio_st)
    (cprov : TPM2_PROVIDER_CTX) (uri : List Char) (ctx : TPM2_OBJECT_CTX)
    (h : (tpm2_object_open ULONG_MAX fs cprov uri).1 = some ctx) : ctx.load_done = 0 := by
  simp only [tpm2_object_open] at h
  split at h
  · cases h
  · rename_i baseuri ctx1 hopt
    have hld : ctx1.load_done = 0 := by
      rcases open_options_some _ _ _ _ hopt with ⟨_, _, hc⟩ | ⟨_, _, _, hc⟩ <;> rw [hc]
    repeat' split at h
    all_goals first
      | (cases h; done)
      | (simp only [Option.some.injEq] at h
         subst h
         exact hld)

/-- The session context after a load: in handle-backed mode `load_done` is set, in
stream-backed mode the byte source has been read; nothing else changes. -/
theorem load_sctx (env : LoadEnv) (sctx : TPM2_OBJECT_CTX) (r : LoadResult)
    (h : tpm2_object_load env sctx = some r) :
    (sctx.bio = none → r.sctx = { sctx with load_done := 1 }) ∧
    (∀ bio, sctx.bio = some bio → r.sctx = { sctx with bio := some (read_until_eof bio).2 }) := by
  simp only [tpm2_object_load] at h
  repeat' split at h
  all_goals first
    | (cases h; done)
    | (simp only [Option.some.injEq] at h
       subst h
       simp_all)

/-- In handle-backed mode every load ends in a defined way. -/
theorem load_handle_defined (env : LoadEnv) (sctx : TPM2_OBJECT_CTX) (h : sctx.bio = none) :
    ∃ r, tpm2_object_load env sctx = some r := by
  simp only [tpm2_object_load, h]
  split_ifs <;> exact ⟨_, rfl⟩

/-- In every reachable state of a handle-backed session `load_done` is 1 when a load has
been performed and 0 when none has; a stream-backed session never sets it. -/
theorem reachable_load_done (ULONG_MAX : Nat) (ctx : TPM2_OBJECT_CTX) (performed : Bool)
    (hr : Reachable ULONG_MAX ctx performed) :
    (ctx.bio = none → ctx.load_done = if performed then 1 else 0) ∧
    (ctx.bio ≠ none → ctx.load_done = 0) := by
  induction hr with
  | opened fs cprov uri ctx h =>
    have := open_load_done ULONG_MAX fs cprov uri ctx h
    simp [this]
  | attached cprov cin_bio ctx h =>
    unfold tpm2_object_attach at h
    split at h
    · cases h
    · simp only [Option.some.injEq] at h
      subst h
      simp
  | loaded env ctx before r _ hl ih =>
    obtain ⟨hnone, hsome⟩ := load_sctx env ctx r hl
    cases hb : ctx.bio with
    | none => rw [hnone hb]; simp [hb]
    | some bio =>
      rw [hsome bio hb]
      have := ih.2 (by simp [hb])
      simp [this]

/-- C9: in every reachable session state `tpm2_object_eof` returns 1 or 0, and it returns 1
exactly when the session is stream-backed and its byte source is at end-of-file, or the
session is handle-backed and a load has already been performed on it (which is when
`load_done` is set). In particular a handle-backed session on which no load has been performed
reports 0, and after its first load, successful or not, it reports 1. -/
theorem eof_iff_exhausted_or_loaded (ULONG_MAX : Nat) (ctx : TPM2_OBJECT_CTX)
    (performed : Bool) (hr : Reachable ULONG_MAX ctx performed) :
    (tpm2_object_eof ctx = 1 ∨ tpm2_object_eof ctx = 0) ∧
    (tpm2_object_eof ctx = 1 ↔
      (∃ bio, ctx.bio = some bio ∧ BIO_eof bio ≠ 0) ∨ (ctx.bio = none ∧ performed = true)) ∧
    (ctx.bio = none → performed = false →
      tpm2_object_eof ctx = 0 ∧
      ∀ (env : LoadEnv), ∃ r, tpm2_object_load env ctx = some r ∧
        Reachable ULONG_MAX r.sctx true ∧ tpm2_object_eof r.sctx = 1) := by
  obtain ⟨hnone, hsome⟩ := reachable_load_done ULONG_MAX ctx performed hr
  refine ⟨?_, ?_, ?_⟩
  · simp only [tpm2_object_eof]; split_ifs <;> simp
  · cases hb : ctx.bio with
    | none =>
      have := hnone hb
      cases performed <;> simp_all [tpm2_object_eof]
    | some bio =>
      have := hsome (by simp [hb])
      simp [tpm2_object_eof, hb, this]
  · intro hb hp
    subst hp
    refine ⟨by simp [tpm2_object_eof, hb, hnone hb], ?_⟩
    intro env
    obtain ⟨r, hl⟩ := load_handle_defined env ctx hb
    refine ⟨r, hl, Reachable.loaded env ctx false r hr hl, ?_⟩
    rw [(load_sctx env ctx r hl).1 hb]
    simp [tpm2_object_eof, hb]

/-- The session opened from `handle:81000000` reports 0 before, and 1 after, its first
load. -/
theorem eof_iff_exhausted_or_loaded_witness :
    Reachable 18446744073709551615 sample_handle_ctx false ∧
    tpm2_object_eof sample_handle_ctx = 0 ∧
    ∃ r, tpm2_object_load (sample_env 1 1) sample_handle_ctx = some r ∧
      Reachable 18446744073709551615 r.sctx true ∧ tpm2_object_eof r.sctx = 1 :=
  have hr : Reachable 18446744073709551615 sample_handle_ctx false :=
    Reachable.opened sample_fs sample_provctx "handle:81000000".toList sample_handle_ctx
      (by decide)
  have h := (eof_iff_exhausted_or_loaded 18446744073709551615 sample_handle_ctx false hr).2.2
    rfl rfl
  ⟨hr, h.1, h.2 (sample_env 1 1)⟩

/-- C3: for every string `h` of one to eight hexadecimal digits, `tpm2_object_open` on
`handle:` followed by `h` (on any C implementation, whatever its `ULONG_MAX`) succeeds
without any call, with a handle-backed session whose handle is the base-16 value of `h`,
`has_pass` 0 and `load_done` 0. For every device and callbacks for which the bind of that
handle value, the public read of the handle bound and the classification of the key data
read all succeed, the following `tpm2_object_load` makes exactly four calls, the bind, the
public read, the classification and the object callback: the callback receives the
descriptor whose `handle` is that value and whose `emptyAuth` is 1 (no passphrase is asked
for and none is set), its result is the result of the load, and `tpm2_object_eof` then
returns 1. -/
theorem handle_locator_opens_and_loads (lim : C_LIMITS) (fs : List Char → Option bio_st)
    (cprov : TPM2_PROVIDER_CTX) (h : List Char)
    (hne : h ≠ []) (hlen : h.length ≤ 8) (hx : ∀ c ∈ h, isxdigit c = true) :
    ∃ ctx, tpm2_object_open lim.ULONG_MAX fs cprov ("handle:".toList ++ h) = (some ctx, []) ∧
      ctx.bio = none ∧ ctx.handle = hex_value h ∧ ctx.has_pass = 0 ∧ ctx.load_done = 0 ∧
      tpm2_object_eof ctx = 0 ∧
      ∀ (env : LoadEnv) (keytype : List Char),
        (env.Esys_TR_FromTPMPublic (hex_value h)).1 = 0 →
        (env.Esys_ReadPublic (env.Esys_TR_FromTPMPublic (hex_value h)).2).1 = 0 →
        env.tpm2_openssl_type
          { pub := (env.Esys_ReadPublic (env.Esys_TR_FromTPMPublic (hex_value h)).2).2,
            privatetype := TPM2_PRIVATE_TYPE.KEY_TYPE_HANDLE,
            handle := hex_value h, emptyAuth := 1 } = some keytype →
        ∃ r params,
          tpm2_object_load env ctx = some r ∧
          r.ret = env.object_cb params ∧
          r.trace =
            [Event.Esys_TR_FromTPMPublic ctx.esys_ctx (hex_value h) 0
               (env.Esys_TR_FromTPMPublic (hex_value h)).2,
             Event.Esys_ReadPublic ctx.esys_ctx (env.Esys_TR_FromTPMPublic (hex_value h)).2 0,
             Event.tpm2_openssl_type params.reference.data (some keytype),
             Event.object_cb params r.ret] ∧
          params.object_type = OSSL_OBJECT_PKEY ∧
          params.data_type = keytype ∧
          params.reference.object = (env.Esys_TR_FromTPMPublic (hex_value h)).2 ∧
          params.reference.data.pub
            = (env.Esys_ReadPublic (env.Esys_TR_FromTPMPublic (hex_value h)).2).2 ∧
          params.reference.data.handle = hex_value h ∧
          params.reference.data.emptyAuth = 1 ∧
          (∀ e ∈ r.trace, e.isPwCb = false ∧ e.isSetAuth = false) ∧
          r.sctx = { ctx with load_done := 1 } ∧
          tpm2_object_eof r.sctx = 1 := by
  refine ⟨_, open_handle_hex lim.ULONG_MAX fs cprov h lim.ULONG_MAX_ge hne hlen hx,
    rfl, rfl, rfl, rfl, by simp [tpm2_object_eof], ?_⟩
  intro env keytype hbind hread htype
  obtain ⟨params, hparams⟩ : ∃ params : ObjectParams, params = (⟨OSSL_OBJECT_PKEY, keytype,
      ⟨cprov.core, cprov.esys_ctx, cprov.capability, (env.Esys_TR_FromTPMPublic (hex_value h)).2,
        ⟨(env.Esys_ReadPublic (env.Esys_TR_FromTPMPublic (hex_value h)).2).2,
          TPM2_PRIVATE_TYPE.KEY_TYPE_HANDLE, hex_value h, 1⟩⟩⟩ : ObjectParams) := ⟨_, rfl⟩
  have hl : tpm2_object_load env
      ⟨cprov.core, cprov.esys_ctx, cprov.capability, 0, hex_value h, none, 0⟩ =
      some ⟨env.object_cb params,
        ⟨cprov.core, cprov.esys_ctx, cprov.capability, 0, hex_value h, none, 1⟩,
        [Event.Esys_TR_FromTPMPublic cprov.esys_ctx (hex_value h) 0 (env.Esys_TR_FromTPMPublic (hex_value h)).2,
         Event.Esys_ReadPublic cprov.esys_ctx (env.Esys_TR_FromTPMPublic (hex_value h)).2 0,
         Event.tpm2_openssl_type params.reference.data (some keytype),
         Event.object_cb params (env.object_cb params)]⟩ := by
    simp only [tpm2_object_load, TPM2_CHECK_RC, load_authorize, load_describe, new_pkey,
      hbind, hread, htype, hparams]
    simp
  refine ⟨_, params, hl, rfl, rfl, ?_, ?_, ?_, ?_, ?_, ?_, ?_, rfl, by simp [tpm2_object_eof]⟩
  · rw [hparams]
  · rw [hparams]
  · rw [hparams]
  · rw [hparams]
  · rw [hparams]
  · rw [hparams]
  · intro e he
    simp only [List.mem_cons, List.mem_singleton, List.not_mem_nil, or_false] at he
    rcases he with rfl | rfl | rfl | rfl <;> exact ⟨rfl, rfl⟩

/-- The locator `handle:1234abcd` opens a session on handle 0x1234abcd, and with the
collaborators of `sample_env`, for which every step succeeds, the load emits the descriptor
of handle 0x1234abcd with empty authorization; `tpm2_object_eof` then returns 1. -/
theorem handle_locator_opens_and_loads_witness :
    ∃ ctx, tpm2_object_open lp64.ULONG_MAX sample_fs sample_provctx
        "handle:1234abcd".toList = (some ctx, []) ∧
      ctx.bio = none ∧ ctx.handle = 305441741 ∧ ctx.has_pass = 0 ∧ ctx.load_done = 0 ∧
      tpm2_object_eof ctx = 0 ∧
      ∃ r params,
        tpm2_object_load (sample_env 1 1) ctx = some r ∧
        r.ret = 1 ∧
        r.trace =
          [Event.Esys_TR_FromTPMPublic ctx.esys_ctx 305441741 0 78,
           Event.Esys_ReadPublic ctx.esys_ctx 78 0,
           Event.tpm2_openssl_type params.reference.data (some "RSA".toList),
           Event.object_cb params r.ret] ∧
        params.reference.data.handle = 305441741 ∧
        params.reference.data.emptyAuth = 1 ∧
        tpm2_object_eof r.sctx = 1 := by
  obtain ⟨ctx, h1, h2, h3, h4, h5, h6, h7⟩ :=
    handle_locator_opens_and_loads lp64 sample_fs sample_provctx
      "1234abcd".toList (by decide) (by decide) (by decide)
  have hv : hex_value "1234abcd".toList = 305441741 := by decide
  obtain ⟨r, params, k1, k2, k3, _, _, _, _, k8, k9, _, _, k12⟩ :=
    h7 (sample_env 1 1) "RSA".toList rfl rfl rfl
  rw [hv] at h3 k3 k8
  exact ⟨ctx, h1, h2, h3, h4, h5, h6, r, params, k1, k2, k3, k8, k9, k12⟩

/-- C8, the claim as stated fails: on the session opened from `handle:81000000`, after a
first load that succeeded (returned 1), a second load calls `Esys_TR_FromTPMPublic` again. -/
theorem second_load_makes_bind_call :
    tpm2_object_open 18446744073709551615 sample_fs sample_provctx "handle:81000000".toList
      = (some sample_handle_ctx, []) ∧
    tpm2_object_load (sample_env 1 1) sample_handle_ctx = some (sample_emitted_run 1) ∧
    (sample_emitted_run 1).ret = 1 ∧
    tpm2_object_load (sample_env 1 1) (sample_emitted_run 1).sctx
      = some (sample_emitted_run 1) ∧
    Event.Esys_TR_FromTPMPublic 2 2164260864 0 78 ∈ (sample_emitted_run 1).trace := by
  decide

/-- C8 amended: for every session opened from `handle:` followed by one to eight hexadecimal
digits, once a first `tpm2_object_load` has succeeded `tpm2_object_eof` returns 1, which is
what tells the caller to stop loading; `tpm2_object_load` itself does not look at `load_done`,
and a second call starts with one more `Esys_TR_FromTPMPublic` call on the same device session
and handle value (and makes no further one). -/
theorem second_load_not_guarded (lim : C_LIMITS) (fs : List Char → Option bio_st)
    (cprov : TPM2_PROVIDER_CTX) (h : List Char)
    (hne : h ≠ []) (hlen : h.length ≤ 8) (hx : ∀ c ∈ h, isxdigit c = true)
    (ctx : TPM2_OBJECT_CTX)
    (hopen : (tpm2_object_open lim.ULONG_MAX fs cprov ("handle:".toList ++ h)).1 = some ctx)
    (env1 : LoadEnv) (r1 : LoadResult) (hload : tpm2_object_load env1 ctx = some r1)
    (_hok : r1.ret ≠ 0) :
    tpm2_object_eof r1.sctx = 1 ∧
    ∀ env2 : LoadEnv, ∃ r2, tpm2_object_load env2 r1.sctx = some r2 ∧
      r2.trace.head? = some (Event.Esys_TR_FromTPMPublic cprov.esys_ctx (hex_value h)
        (env2.Esys_TR_FromTPMPublic (hex_value h)).1
        (env2.Esys_TR_FromTPMPublic (hex_value h)).2) ∧
      ∀ e ∈ r2.trace.tail, e.isBind = false := by
  rw [open_handle_hex lim.ULONG_MAX fs cprov h lim.ULONG_MAX_ge hne hlen hx] at hopen
  simp only [Option.some.injEq] at hopen
  subst hopen
  have hs := (load_sctx env1 _ r1 hload).1 rfl
  rw [hs]
  refine ⟨by simp [tpm2_object_eof], ?_⟩
  intro env2
  simp only [tpm2_object_load, TPM2_CHECK_RC, load_authorize, load_describe, load_error1,
    load_error2, new_pkey]
  repeat' split
  all_goals
    refine ⟨_, rfl, rfl, ?_⟩
    simp only [List.tail_cons, List.mem_cons, List.mem_singleton, List.not_mem_nil, or_false,
      forall_eq_or_imp, forall_eq, Event.isBind]
    simp_all

/-- The second load on the session opened from `handle:81000000` binds handle 0x81000000
again. -/
theorem second_load_not_guarded_witness :
    tpm2_object_eof (sample_emitted_run 1).sctx = 1 ∧
    ∃ r2, tpm2_object_load (sample_env 1 1) (sample_emitted_run 1).sctx = some r2 ∧
      r2.trace.head? = some (Event.Esys_TR_FromTPMPublic 2 2164260864 0 78) ∧
      ∀ e ∈ r2.trace.tail, e.isBind = false := by
  have h := second_load_not_guarded lp64 sample_fs sample_provctx
    "81000000".toList (by decide) (by decide) (by decide) sample_handle_ctx
    (by decide) (sample_env 1 1) (sample_emitted_run 1) (by decide) (by decide)
  have hv : hex_value "81000000".toList = 2164260864 := by decide
  rw [hv] at h
  exact ⟨h.1, h.2 (sample_env 1 1)⟩

/-- The `baseuri` the option part hands on is the text before the first `?`. -/
theorem open_options_baseuri (ctx ctx1 : TPM2_OBJECT_CTX) (uri baseuri : List Char)
    (h : open_options ctx uri = some (baseuri, ctx1)) :
    baseuri = uri.takeWhile (fun c => c != '?') := by
  rcases open_options_some ctx ctx1 uri baseuri h with ⟨hq, hb, _⟩ | ⟨rest, hu, hq, _⟩
  · rw [hb]
    symm
    apply List.takeWhile_eq_self_iff.mpr
    intro c hc
    simpa using fun hcq : c = '?' => hq (hcq ▸ hc)
  · have : uri = baseuri ++ '?' :: ("pass".toList ++ rest) := by
      rw [hu]; simp [List.append_assoc]
    rw [this, takeWhile_ne_split _ _ _ hq]

/-- What the grammar excludes: a text that `strtoul` does not consume whole, or converts to
more than `UINT32_MAX`, is not a number of the grammar of value at most `UINT32_MAX`. -/
theorem not_number_of_strtoul (ULONG_MAX : Nat) (r : List Char)
    (h : (strtoul ULONG_MAX r).2 ≠ [] ∨ UINT32_MAX < (strtoul ULONG_MAX r).1) :
    ¬ ∃ v, StrtoulNumber ULONG_MAX r v ∧ v ≤ UINT32_MAX := by
  rintro ⟨v, hn, hv⟩
  have hs := strtoul_of_number ULONG_MAX r v hn
  rw [hs] at h
  rcases h with h | h
  · exact h rfl
  · exact absurd hv (Nat.not_le.mpr h)

/-- C1, the claim as stated fails: the remainder `0x81000000` is not made of hexadecimal
digits only (it contains `x`), yet `handle:0x81000000` opens a session, on handle
0x81000000. -/
theorem handle_with_0x_opens :
    'x' ∈ "0x81000000".toList ∧ isxdigit 'x' = false ∧
    tpm2_object_open 18446744073709551615 sample_fs sample_provctx
      "handle:0x81000000".toList = (some sample_handle_ctx, []) := by
  decide

/-- C1 amended: for every locator whose mode part (the text before the first `?`) does not
begin with `object:`, is not `handle:` followed by a number as `strtoul` reads it in base 16
(optional white space, optional sign, optional `0x` or `0X`, at least one hexadecimal digit)
of converted value at most 2^32-1, and is not the bare `handle:`, `tpm2_object_open` fails
(returns no session context) and makes no device-session call. -/
theorem malformed_mode_part_fails (ULONG_MAX : Nat) (fs : List Char → Option bio_st)
    (cprov : TPM2_PROVIDER_CTX) (uri : List Char)
    (hobj : (uri.takeWhile (fun c => c != '?')).take 7 ≠ "object:".toList)
    (hbare : uri.takeWhile (fun c => c != '?') ≠ "handle:".toList)
    (hnum : ¬ ∃ r v, uri.takeWhile (fun c => c != '?') = "handle:".toList ++ r ∧
      StrtoulNumber ULONG_MAX r v ∧ v ≤ UINT32_MAX) :
    (tpm2_object_open ULONG_MAX fs cprov uri).1 = none ∧
    ∀ e ∈ (tpm2_object_open ULONG_MAX fs cprov uri).2, e.isDevice = false := by
  simp only [tpm2_object_open]
  split
  · simp [Event.isDevice]
  · rename_i baseuri ctx1 hopt
    have hb := open_options_baseuri _ _ _ _ hopt
    rw [← hb] at hobj hbare hnum
    have h1 : strncmp_eq baseuri "object:".toList 7 = false := by
      simp only [strncmp_eq, object_chars, List.take, beq_eq_false_iff_ne, ne_eq] at hobj ⊢
      exact hobj
    simp only [h1, Bool.false_eq_true, if_false]
    split_ifs with h2 h3
    · simp [Event.isDevice]
    · exfalso
      have htake : baseuri.take 7 = "handle:".toList := by
        simpa [strncmp_eq, handle_chars] using h2
      have hsplit : baseuri = "handle:".toList ++ baseuri.drop 7 := by
        rw [← htake, List.take_append_drop]
      have hend : (strtoul ULONG_MAX (baseuri.drop 7)).2 = [] := by
        by_contra hne
        exact h3 (Or.inl hne)
      have hval : (strtoul ULONG_MAX (baseuri.drop 7)).1 ≤ UINT32_MAX := by
        by_contra hgt
        exact h3 (Or.inr (Nat.not_le.mp hgt))
      rcases strtoul_whole ULONG_MAX _ hend with hnil | hn
      · rw [hnil, List.append_nil] at hsplit
        exact hbare hsplit
      · exact hnum ⟨_, _, hsplit, hn, hval⟩
    · simp [Event.isDevice]

/-- The three malformed locators of the specification fail to open, on a platform with a
64-bit `unsigned long`, and no call to the device session is made. -/
theorem malformed_mode_part_fails_witness :
    ((tpm2_object_open 18446744073709551615 sample_fs sample_provctx "foo:bar".toList).1
        = none ∧
      ∀ e ∈ (tpm2_object_open 18446744073709551615 sample_fs sample_provctx
        "foo:bar".toList).2, e.isDevice = false) ∧
    ((tpm2_object_open 18446744073709551615 sample_fs sample_provctx "handle:zzz".toList).1
        = none ∧
      ∀ e ∈ (tpm2_object_open 18446744073709551615 sample_fs sample_provctx
        "handle:zzz".toList).2, e.isDevice = false) ∧
    ((tpm2_object_open 18446744073709551615 sample_fs sample_provctx
        "handle:100000000".toList).1 = none ∧
      ∀ e ∈ (tpm2_object_open 18446744073709551615 sample_fs sample_provctx
        "handle:100000000".toList).2, e.isDevice = false) := by
  refine ⟨?_, ?_, ?_⟩
  · refine malformed_mode_part_fails _ _ _ _ (by decide) (by decide) ?_
    rintro ⟨r, v, hm, -, -⟩
    have e : List.takeWhile (fun c => c != '?') "foo:bar".toList
        = ['f', 'o', 'o', ':', 'b', 'a', 'r'] := by decide
    rw [e, handle_chars] at hm
    simp at hm
  · refine malformed_mode_part_fails _ _ _ _ (by decide) (by decide) ?_
    rintro ⟨r, v, hm, hn, hv⟩
    have e : List.takeWhile (fun c => c != '?') "handle:zzz".toList
        = "handle:".toList ++ "zzz".toList := by decide
    rw [e] at hm
    have hr := List.append_cancel_left hm
    subst hr
    exact not_number_of_strtoul _ _ (by decide) ⟨v, hn, hv⟩
  · refine malformed_mode_part_fails _ _ _ _ (by decide) (by decide) ?_
    rintro ⟨r, v, hm, hn, hv⟩
    have e : List.takeWhile (fun c => c != '?') "handle:100000000".toList
        = "handle:".toList ++ "100000000".toList := by decide
    rw [e] at hm
    have hr := List.append_cancel_left hm
    subst hr
    exact not_number_of_strtoul _ _ (by decide) ⟨v, hn, hv⟩

/-- C2, the claim as stated fails: the query `password` is longer than `pass` and merely
begins with it, yet the locators open, with `has_pass` set. -/
theorem query_longer_than_pass_opens :
    (tpm2_object_open 18446744073709551615 sample_fs sample_provctx
      "handle:81000000?password".toList).1 = some { sample_handle_ctx with has_pass := 1 } ∧
    (tpm2_object_open 18446744073709551615 sample_fs sample_provctx
      "object:/tmp/key.ref?password".toList).1 = some sample_pass_ctx := by
  decide

/-- C2 amended: for every locator that contains a `?`, `tpm2_object_open` succeeds only if
the text after the first `?` begins with `pass` (the comparison covers four characters, so
anything may follow them), and then `has_pass` is set; for every other suffix it returns no
session context. -/
theorem open_query_begins_with_pass (ULONG_MAX : Nat) (fs : List Char → Option bio_st)
    (cprov : TPM2_PROVIDER_CTX) (uri : List Char) (ctx : TPM2_OBJECT_CTX)
    (hq : '?' ∈ uri) (hopen : (tpm2_object_open ULONG_MAX fs cprov uri).1 = some ctx) :
    ∃ base rest, uri = base ++ "?pass".toList ++ rest ∧ '?' ∉ base ∧ ctx.has_pass = 1 := by
  simp only [tpm2_object_open] at hopen
  split at hopen
  · cases hopen
  · rename_i baseuri ctx1 hopt
    rcases open_options_some _ _ _ _ hopt with ⟨hn, _, _⟩ | ⟨rest, hu, hb, hc⟩
    · exact absurd hq hn
    · refine ⟨baseuri, rest, hu, hb, ?_⟩
      subst hc
      repeat' split at hopen
      all_goals first
        | (cases hopen; done)
        | (simp only [Option.some.injEq] at hopen
           subst hopen
           rfl)

/-- The locator `object:/tmp/key.ref?pass` opens, and its query is `pass`. -/
theorem open_query_begins_with_pass_witness :
    (tpm2_object_open 18446744073709551615 sample_fs sample_provctx
      "object:/tmp/key.ref?pass".toList).1 = some sample_pass_ctx ∧
    ∃ base rest, "object:/tmp/key.ref?pass".toList = base ++ "?pass".toList ++ rest ∧
      '?' ∉ base ∧ sample_pass_ctx.has_pass = 1 :=
  ⟨by decide,
    open_query_begins_with_pass 18446744073709551615 sample_fs sample_provctx
      "object:/tmp/key.ref?pass".toList sample_pass_ctx (by decide) (by decide)⟩

/-- C10, the claim as stated fails: on the null context `tpm2_object_close` returns 0, while
for a live context it returns 1. -/
theorem close_null_result_differs :
    (tpm2_object_close none).1 = 0 ∧ (tpm2_object_close (some sample_handle_ctx)).1 = 1 ∧
    (tpm2_object_close none).1 ≠ (tpm2_object_close (some sample_handle_ctx)).1 := by
  decide

/-- C10 amended: on the null context `tpm2_object_close` returns 0 (not the 1 it returns for
every live context) and makes no call at all; on a live context it frees the byte source and
the context and returns 1. -/
theorem close_null_returns_zero_without_action :
    tpm2_object_close none = (0, []) ∧
    ∀ sctx : TPM2_OBJECT_CTX,
      tpm2_object_close (some sctx) = (1, [Event.BIO_free sctx.bio, Event.clear_free_ctx sctx]) :=
  ⟨rfl, fun _ => rfl⟩

/-- The bare locator `handle:` opens a session on handle 0: with no digit `strtoul` converts
nothing, returns 0 and leaves `end_ptr` at the terminating NUL, which the check of
`*end_ptr` accepts. -/
theorem bare_handle_opens_handle_zero :
    tpm2_object_open 18446744073709551615 sample_fs sample_provctx "handle:".toList
      = (some { sample_handle_ctx with handle := 0 }, []) := by
  decide

end Tpm2Store
